import Mathlib

/-!
Verification development for the live-class transcription gateway.

The definitions below are a shallow embedding of the Python sources:
`src/utils/validators.py`, `src/services/stream_manager.py`,
`src/services/chunk_buffer.py`, `src/services/audio_extractor.py`,
`src/services/soniox_client.py` and `src/services/transcription.py`.
Machine floats carrying timing data are modelled as rationals, wall-clock
instants as naturals, and asynchronous generators as explicit loops over
event traces.
-/

namespace LiveTranscription

/-! ## Data model (src/models/stream.py, src/models/transcription.py) -/

/-- `StreamStatus` enum from `src/models/stream.py`. -/
inductive StreamStatus where
  | pending
  | starting
  | active
  | stopping
  | stopped
  | error
deriving DecidableEq

/-- Position of a status in the lifecycle order
`pending, starting, active, stopping, stopped, error` used by the spec's
"status never moves backward" invariant. -/
def statusRank : StreamStatus → Nat
  | .pending => 0
  | .starting => 1
  | .active => 2
  | .stopping => 3
  | .stopped => 4
  | .error => 5

/-- `Word` model from `src/models/transcription.py`.  The float fields are
modelled as rationals. -/
structure Word where
  text : String
  start_time : Rat
  end_time : Rat
  confidence : Rat
  speaker : Option String := none
  language : Option String := none
deriving DecidableEq

/-- `TranscriptionSegment` model from `src/models/transcription.py`
(the unused free-form `metadata` dict is omitted; `timestamp` is a natural
wall-clock instant). -/
structure TranscriptionSegment where
  unique_id : String
  segment_id : String
  timestamp : Nat
  stream_time : Rat
  text : String
  is_final : Bool
  words : List Word := []
deriving DecidableEq

/-- `StreamSession` model from `src/models/stream.py` (datetimes as naturals). -/
structure StreamSession where
  session_id : String
  unique_id : String
  status : StreamStatus
  started_at : Nat
  stopped_at : Option Nat := none
  error : Option String := none
  hls_url : String
deriving DecidableEq

/-! ## unique_id validation (src/utils/validators.py, src/api/routes.py)

`validate_unique_id` runs `re.match(r'^[a-zA-Z0-9_-]+$', unique_id)`.
The matcher below is an operational embedding of how Python's `re` engine
matches that exact pattern: `^` anchors at the start, `[a-zA-Z0-9_-]+`
consumes one or more class characters (with backtracking), and `$` matches
at the end of the string **or just before a newline at the end of the
string** (Python semantics without `re.MULTILINE`). -/

/-- Characters of the class `[a-zA-Z0-9_-]`. -/
def isIdChar (c : Char) : Bool :=
  c.isAlphanum || c == '_' || c == '-'

/-- Python's `$` (no MULTILINE): matches when the remaining input is empty
or is a single trailing newline. -/
def dollarMatches : List Char → Bool
  | [] => true
  | [c] => c == '\n'
  | _ :: _ :: _ => false

/-- After at least one class character has been consumed: succeed if `$`
matches here, otherwise try to consume one more class character. -/
def idPlusTail : List Char → Bool
  | [] => true
  | c :: rest => dollarMatches (c :: rest) || (isIdChar c && idPlusTail rest)

/-- `re.match(r'^[a-zA-Z0-9_-]+$', s) is not None`, embedded operationally. -/
def reMatchUniqueId (s : String) : Bool :=
  match s.data with
  | [] => false
  | c :: rest => isIdChar c && idPlusTail rest

/-- `validate_unique_id` from `src/utils/validators.py`: returns the truth
of the regex match. -/
def validate_unique_id (s : String) : Bool :=
  reMatchUniqueId s

/-- The `start_transcription` route (src/api/routes.py lines 74-79)
raises HTTP 400 exactly when `validate_unique_id` returns `False`. -/
def startRejects400 (s : String) : Bool :=
  ! validate_unique_id s

/-- Modelled from the spec words: the regex `^[A-Za-z0-9_-]+$` read as a
full-string match — the string is non-empty and every character is in the
class. Used to compare the spec's claim against the code's matcher. -/
def matchesIdRegexFull (s : String) : Bool :=
  ! s.data.isEmpty && s.data.all isIdChar

/-- Modelled from Python `$` semantics: the string ends in a newline and
everything before that final newline is a non-empty run of class
characters. -/
def matchesIdRegexBeforeNL (s : String) : Bool :=
  match s.data.getLast? with
  | some c => c == '\n' && (! s.data.dropLast.isEmpty && s.data.dropLast.all isIdChar)
  | none => false

/-! ## Session manager (src/services/stream_manager.py)

Python dicts are embedded as association lists in insertion order;
`dictSet` is dict assignment `m[k] = v` (replace in place, else append). -/

/-- Dict assignment `m[k] = v`: replaces the value at an existing key,
otherwise appends the binding. -/
def dictSet {α : Type} : List (String × α) → String → α → List (String × α)
  | [], k, v => [(k, v)]
  | (k', v') :: rest, k, v =>
    if k == k' then (k, v) :: rest else (k', v') :: dictSet rest k v

/-- `asyncio.Queue`: `maxsize` and the pending items.  `asyncio.Queue()`
with no argument has `maxsize = 0`, which asyncio documents as "infinite
size". -/
structure AQueue (α : Type) where
  maxsize : Nat
  items : List α
deriving DecidableEq

/-- `asyncio.Queue.put` suspends exactly while the queue is full; a queue
is full iff `0 < maxsize` and `maxsize ≤ len(items)`. -/
def AQueue.putWouldBlock {α : Type} (q : AQueue α) : Bool :=
  decide (0 < q.maxsize) && decide (q.maxsize ≤ q.items.length)

/-- One `await queue.put(x)`: `none` models the caller suspending on a
full queue, otherwise the item is appended. -/
def AQueue.putItem {α : Type} (q : AQueue α) (x : α) : Option (AQueue α) :=
  if q.putWouldBlock then none else some { q with items := q.items ++ [x] }

/-- The queue constructed by `asyncio.Queue()` in
`StreamSessionManager.register_queue` (default `maxsize = 0`). -/
def newSubscriberQueue {α : Type} : AQueue α :=
  { maxsize := 0, items := [] }

/-- A queue is bounded when its capacity is positive (asyncio's
`maxsize = 0` means unbounded). -/
def QueueBounded {α : Type} (q : AQueue α) : Prop :=
  0 < q.maxsize

/-- Subscriber-queue map of the manager: `unique_id → list of queues`. -/
abbrev QueueMap := List (String × List (AQueue TranscriptionSegment))

/-- `StreamSessionManager.register_queue`: ensure the stream has a queue
list, append a fresh `asyncio.Queue()`, and return it. -/
def registerQueue (qm : QueueMap) (uid : String) : QueueMap × AQueue TranscriptionSegment :=
  let qm := if (qm.lookup uid).isSome then qm else dictSet qm uid []
  let q : AQueue TranscriptionSegment := newSubscriberQueue
  (dictSet qm uid ((qm.lookup uid).getD [] ++ [q]), q)

/-- `broadcast_segment`'s inner loop: `await queue.put(segment)` for each
registered queue in order; `none` models the broadcasting task suspending
on some queue's `put`. -/
def broadcastToQueues : List (AQueue TranscriptionSegment) → TranscriptionSegment →
    Option (List (AQueue TranscriptionSegment))
  | [], _ => some []
  | q :: rest, x =>
    match q.putItem x with
    | none => none
    | some q' =>
      match broadcastToQueues rest x with
      | none => none
      | some rest' => some (q' :: rest')

/-- `StreamSessionManager.broadcast_segment`: if the stream has registered
queues, put the segment into every one of them. -/
def broadcastSegment (qm : QueueMap) (uid : String) (seg : TranscriptionSegment) :
    Option QueueMap :=
  match qm.lookup uid with
  | none => some qm
  | some qs => (broadcastToQueues qs seg).map (dictSet qm uid)

/-- The four maps owned by `StreamSessionManager` plus the configured cap
(task handles and client connections are opaque naturals). -/
structure ManagerState where
  max_concurrent : Nat
  active_sessions : List (String × StreamSession) := []
  session_tasks : List (String × Nat) := []
  session_clients : List (String × List Nat) := []
  session_queues : QueueMap := []
deriving DecidableEq

/-- The two failure modes of `create_session`: `ValueError` ("already has
an active session") and `RuntimeError` ("maximum concurrent streams"). -/
inductive CreateErr where
  | alreadyExists
  | atCapacity
deriving DecidableEq

/-- `StreamSessionManager.create_session` under the manager's lock: check
existence, check the cap, then insert the fresh session and an empty
client set.  `sid` is the fresh uuid and `now` the creation instant.
The state is returned unchanged alongside an error on failure. -/
def createSession (st : ManagerState) (uid hls sid : String) (now : Nat) :
    ManagerState × Except CreateErr StreamSession :=
  if (st.active_sessions.lookup uid).isSome then
    (st, .error .alreadyExists)
  else if st.max_concurrent ≤ st.active_sessions.length then
    (st, .error .atCapacity)
  else
    let s : StreamSession :=
      { session_id := sid, unique_id := uid, status := .pending,
        started_at := now, hls_url := hls }
    ({ st with
        active_sessions := dictSet st.active_sessions uid s,
        session_clients := dictSet st.session_clients uid [] },
     .ok s)

/-- `StreamSessionManager.update_session_status`: unconditionally sets the
new status on the session (if present), records the error message when it
is a non-empty string, and stamps `stopped_at` on the terminal statuses. -/
def updateSessionStatus (st : ManagerState) (uid : String) (status : StreamStatus)
    (err : Option String) (now : Nat) : ManagerState :=
  match st.active_sessions.lookup uid with
  | none => st
  | some s =>
    let s' : StreamSession :=
      { s with
        status := status,
        error := match err with
          | some e => if e = "" then s.error else some e
          | none => s.error,
        stopped_at :=
          if status = .stopped ∨ status = .error then some now else s.stopped_at }
    { st with active_sessions := dictSet st.active_sessions uid s' }

/-! ## Chunk buffer (src/services/chunk_buffer.py) -/

/-- The word dict `{'text', 'start_time', 'end_time', 'confidence'}`
appended to `chunk.words` by `add_segment` and by the flush fallback. -/
structure WordRec where
  text : String
  start_time : Rat
  end_time : Rat
  confidence : Rat
deriving DecidableEq

/-- Projection of a segment `Word` to the stored word dict. -/
def wordToRec (w : Word) : WordRec :=
  { text := w.text, start_time := w.start_time, end_time := w.end_time,
    confidence := w.confidence }

/-- `ChunkData` from `src/services/chunk_buffer.py`. -/
structure ChunkData where
  start_time : Rat
  end_time : Rat
  segments : List TranscriptionSegment := []
  text : String := ""
  words : List WordRec := []
deriving DecidableEq

/-- Python's `str.strip()` with no argument: remove whitespace from both
ends (embedded over the character list so that it evaluates). -/
def pyStrip (s : String) : String :=
  String.mk (((s.data.dropWhile Char.isWhitespace).reverse.dropWhile
    Char.isWhitespace).reverse)

/-- The text update `add_segment` performs for a final segment: append the
trimmed text, with a single separating space when the accumulator is
non-empty. -/
def joinFinalText (acc t : String) : String :=
  if acc ≠ "" then acc ++ " " ++ t else t

/-- `ChunkBuffer.add_segment` acting on `_current_chunk`: open the window
on the first segment, append the segment, advance `end_time`, and fold
final segments into the accumulated text and words. -/
def addSegment (cur : Option ChunkData) (seg : TranscriptionSegment) : Option ChunkData :=
  let c : ChunkData :=
    match cur with
    | none => { start_time := seg.stream_time, end_time := seg.stream_time }
    | some c => c
  let c : ChunkData := { c with segments := c.segments ++ [seg], end_time := seg.stream_time }
  if seg.is_final then
    some { c with
            text := joinFinalText c.text (pyStrip seg.text),
            words := c.words ++ seg.words.map wordToRec }
  else
    some c

/-- `ChunkBuffer._flush_current_chunk` acting on `_current_chunk`:
return the new buffer state and the chunk handed to `on_chunk_ready`
(`none` when the callback is not invoked).  The callback is invoked only
when the (possibly fallback) text is non-empty. -/
def flushChunk (cur : Option ChunkData) : Option ChunkData × Option ChunkData :=
  match cur with
  | none => (none, none)
  | some c =>
    if c.segments.isEmpty then (some c, none)
    else
      let c' : ChunkData :=
        if c.text = "" then
          match c.segments.getLast? with
          | some last =>
            { c with text := (pyStrip last.text), words := c.words ++ last.words.map wordToRec }
          | none => c
        else c
      (none, if c'.text ≠ "" then some c' else none)

/-- Accumulated final text of a window, as folded by `add_segment` over
the window's segments in order. -/
def windowFinalText (segs : List TranscriptionSegment) : String :=
  segs.foldl (fun a s => if s.is_final then joinFinalText a (pyStrip s.text) else a) ""

/-- Word dicts accumulated from the final segments of a window. -/
def windowFinalWords (segs : List TranscriptionSegment) : List WordRec :=
  ((segs.filter fun s => s.is_final).map fun s => s.words.map wordToRec).flatten

/-! ## Audio extractor (src/services/audio_extractor.py) -/

/-- Retry constants of `AudioExtractor` (delays in whole seconds). -/
def MAX_RETRIES : Nat := 5

/-- `INITIAL_RETRY_DELAY = 1.0`. -/
def INITIAL_RETRY_DELAY : Nat := 1

/-- `MAX_RETRY_DELAY = 30.0`. -/
def MAX_RETRY_DELAY : Nat := 30

/-- `BACKOFF_MULTIPLIER = 2.0`. -/
def BACKOFF_MULTIPLIER : Nat := 2

/-- One observable event of the `_extract_audio` read loop: a completed
`stdout.read` (with the value of `process.returncode is not None` at that
moment, consulted only when the empty-read threshold has been reached), or
an `asyncio.TimeoutError` of the 30 s per-read timeout. -/
inductive ReadEv where
  | readData (bytes : List Nat) (procExited : Bool)
  | readTimedOut
deriving DecidableEq

/-- How an `_extract_audio` run left its loop. -/
inductive ExtractEnd where
  | endedStream
  | raisedTimeout
  | ranOut
deriving DecidableEq

/-- `AudioExtractor._extract_audio`'s read loop over a trace of read
events, carrying `empty_read_count`.  Returns the yielded chunks and how
the loop ended (`ranOut` = the trace was exhausted while still looping).
An empty read increments the counter; at `max_empty_reads = 10` the loop
returns only if the child has exited, otherwise it sleeps 100 ms and
keeps polling (the counter is not reset). -/
def extractLoop : List ReadEv → Nat → List (List Nat) × ExtractEnd
  | [], _ => ([], .ranOut)
  | .readTimedOut :: _, _ => ([], .raisedTimeout)
  | .readData bs ex :: rest, cnt =>
    if bs.isEmpty then
      let cnt' := cnt + 1
      if 10 ≤ cnt' then
        if ex then ([], .endedStream)
        else extractLoop rest cnt'
      else extractLoop rest cnt'
    else
      let r := extractLoop rest 0
      (bs :: r.1, r.2)

/-- One run of `_extract_audio` as observed by `AudioExtractor.start`:
the chunks it yielded, then either a normal end of the inner generator
(`endsOk = true`) or a raised exception. -/
structure ExtractRun where
  chunks : List (List Nat)
  endsOk : Bool
deriving DecidableEq

/-- How `AudioExtractor.start`'s retry loop ended. -/
inductive StartEnd where
  | gracefulEnd
  | retriesExhausted
  | ranOut
deriving DecidableEq

/-- `AudioExtractor.start`'s retry loop over a trace of inner runs,
carrying `_consecutive_failures` and `retry_delay` (whole seconds).
Returns all yielded chunks, the sleeps performed between retries, and how
the loop ended.  Each successful yield resets the failure counter to 0 and
the delay to `INITIAL_RETRY_DELAY`; an exception increments the counter,
ends the loop at `MAX_RETRIES`, and otherwise sleeps `retry_delay` before
doubling it up to `MAX_RETRY_DELAY`. -/
def startLoop : List ExtractRun → Nat → Nat → List (List Nat) × List Nat × StartEnd
  | [], _, _ => ([], [], .ranOut)
  | r :: rest, fails, delay =>
    let fails := if r.chunks.isEmpty then fails else 0
    let delay := if r.chunks.isEmpty then delay else INITIAL_RETRY_DELAY
    if r.endsOk then (r.chunks, [], .gracefulEnd)
    else
      let fails' := fails + 1
      if MAX_RETRIES ≤ fails' then (r.chunks, [], .retriesExhausted)
      else
        let rec' := startLoop rest fails' (min (delay * BACKOFF_MULTIPLIER) MAX_RETRY_DELAY)
        (r.chunks ++ rec'.1, delay :: rec'.2.1, rec'.2.2)

/-! ## STT client receive loop (src/services/soniox_client.py) -/

/-- `is_final` flags and optional timing fields of a provider token, as
read with `dict.get` in `_format_transcription`. -/
structure Token where
  text : String
  is_final : Option Bool := none
  start_time : Option Rat := none
  end_time : Option Rat := none
  confidence : Option Rat := none
  speaker : Option String := none
  language : Option String := none
deriving DecidableEq

/-- One parsed JSON frame from the provider, with the fields
`receive_transcriptions` inspects via `dict.get`. -/
structure SxFrame where
  error_code : Option String := none
  error_message : Option String := none
  finished : Option Bool := none
  tokens : Option (List Token) := none
deriving DecidableEq

/-- Truthiness of `data.get("error_code")`: present and non-empty. -/
def frameHasErr (f : SxFrame) : Bool :=
  match f.error_code with
  | some s => s != ""
  | none => false

/-- Truthiness of `data.get("finished")`. -/
def frameFinished (f : SxFrame) : Bool :=
  f.finished.getD false

/-- `"tokens" in data and data["tokens"]`: present and non-empty. -/
def frameHasTokens (f : SxFrame) : Bool :=
  match f.tokens with
  | some l => ! l.isEmpty
  | none => false

/-- How `receive_transcriptions` stopped producing frames. -/
inductive RecvEnd where
  | erroredOut
  | finishedOk
  | socketClosed
deriving DecidableEq

/-- `SonioxClient.receive_transcriptions` over the incoming text frames;
`none` entries are frames `json.loads` failed to parse (skipped).
An error-code frame raises (reception ends with a surfaced error), a
finished frame breaks the loop, a frame with non-empty `tokens` is
yielded, anything else is skipped; exhausting the socket ends reception
like a connection close. -/
def receiveLoop : List (Option SxFrame) → List SxFrame × RecvEnd
  | [] => ([], .socketClosed)
  | none :: rest => receiveLoop rest
  | some f :: rest =>
    if frameHasErr f then ([], .erroredOut)
    else if frameFinished f then ([], .finishedOk)
    else if frameHasTokens f then
      let r := receiveLoop rest
      (f :: r.1, r.2)
    else receiveLoop rest

/-! ## Segment formation (src/services/transcription.py) -/

/-- The `Word(...)` construction in `_format_transcription`, with the
`dict.get` defaults `0`, `0`, `1.0`, `None`, `None`. -/
def wordOfToken (t : Token) : Word :=
  { text := t.text,
    start_time := t.start_time.getD 0,
    end_time := t.end_time.getD 0,
    confidence := t.confidence.getD 1,
    speaker := t.speaker,
    language := t.language }

/-- The token loop of `_format_transcription`, with its three accumulators
`text_parts`, `words`, `is_final`: tokens with empty text are skipped,
surviving texts and words are appended in order, and `is_final` is set
once any surviving token has a truthy `is_final`. -/
def formatScan : List Token → List String → List Word → Bool →
    List String × List Word × Bool
  | [], tp, ws, fin => (tp, ws, fin)
  | t :: rest, tp, ws, fin =>
    if t.text = "" then formatScan rest tp ws fin
    else formatScan rest (tp ++ [t.text]) (ws ++ [wordOfToken t])
      (fin || t.is_final.getD false)

/-- `TranscriptionService._format_transcription` given the token list of a
result frame and the ambient identifiers/times: `none` when there are no
tokens or none survive the empty-text filter, otherwise the normalized
segment with concatenated text. -/
def formatTranscription (uid sid : String) (ts : Nat) (stime : Rat)
    (tokens : List Token) : Option TranscriptionSegment :=
  if tokens.isEmpty then none
  else
    let r := formatScan tokens [] [] false
    if r.1.isEmpty then none
    else
      some { unique_id := uid, segment_id := sid, timestamp := ts,
             stream_time := stime, text := String.join r.1,
             is_final := r.2.2, words := r.2.1 }

/-! ## Concrete sample inputs used by witnesses and counterexamples -/

/-- A whitespace-only non-final (interim) segment. -/
def wsSeg : TranscriptionSegment :=
  { unique_id := "s", segment_id := "p", timestamp := 0, stream_time := 0,
    text := " ", is_final := false }

/-- A final segment with text "alpha". -/
def segAlpha : TranscriptionSegment :=
  { unique_id := "s", segment_id := "g1", timestamp := 0, stream_time := 0,
    text := "alpha", is_final := true }

/-- A final segment with text "beta". -/
def segBeta : TranscriptionSegment :=
  { unique_id := "s", segment_id := "g2", timestamp := 1, stream_time := 1,
    text := "beta", is_final := true }

/-- An already-active session used to exercise the manager. -/
def sessActive : StreamSession :=
  { session_id := "sid-1", unique_id := "s", status := .active,
    started_at := 0, hls_url := "u" }

/-- Manager at its capacity of one, holding `sessActive` under key "s". -/
def mgrFull : ManagerState :=
  { max_concurrent := 1, active_sessions := [("s", sessActive)] }

/-- Manager with spare capacity holding `sessActive` under key "s". -/
def mgrOne : ManagerState :=
  { max_concurrent := 10, active_sessions := [("s", sessActive)] }

/-- A provider token with non-empty text marked final. -/
def tokHi : Token := { text := "hi", is_final := some true }

/-- A provider frame carrying both `finished: true` and a non-empty
`tokens` list. -/
def finishedTokensFrame : SxFrame :=
  { finished := some true, tokens := some [tokHi] }

/-- `frameHasErr f || frameFinished f`: the frame ends the receive loop. -/
def frameTerminates (f : SxFrame) : Bool :=
  frameHasErr f || frameFinished f

/-! ## Helper lemmas -/

lemma idPlusTail_eq (l : List Char) :
    idPlusTail l =
      (l.all isIdChar ||
        ((match l.getLast? with | some c => c == '\n' | none => false) &&
          l.dropLast.all isIdChar)) := by
  induction l with
  | nil => rfl
  | cons c l ih =>
    cases l with
    | nil =>
      simp [idPlusTail, dollarMatches, Bool.or_comm]
    | cons d l' =>
      show (dollarMatches (c :: d :: l') || (isIdChar c && idPlusTail (d :: l'))) = _
      rw [ih]
      simp only [dollarMatches, List.all_cons, List.getLast?_cons_cons,
        List.dropLast_cons₂, Bool.false_or]
      cases hg : (d :: l').getLast? <;> cases isIdChar c <;> simp

lemma reMatch_eq (s : String) :
    reMatchUniqueId s = (matchesIdRegexFull s || matchesIdRegexBeforeNL s) := by
  unfold reMatchUniqueId matchesIdRegexFull matchesIdRegexBeforeNL
  cases h : s.data with
  | nil => simp
  | cons c l =>
    cases l with
    | nil => simp [idPlusTail_eq]
    | cons d l' =>
      simp only [idPlusTail_eq, List.all_cons, List.getLast?_cons_cons,
        List.dropLast_cons₂, List.isEmpty_cons, Bool.not_false, Bool.true_and]
      cases hg : (d :: l').getLast? <;> cases isIdChar c <;> simp

/-! ## C9: unique_id validation -/

/-- C9 counterexample: `"abc\n"` does not belong to the language of
`^[A-Za-z0-9_-]+$` read as a full-string match, yet `validate_unique_id`
accepts it (Python's `$` also matches just before a trailing newline), so
the start route does not reject it with HTTP 400 — refuting the "if and
only if" as stated. -/
theorem unique_id_trailing_newline_cex :
    validate_unique_id "abc\n" = true
    ∧ matchesIdRegexFull "abc\n" = false
    ∧ startRejects400 "abc\n" = false := by
  decide

/-- C9 (amended): the start admission check rejects a stream_id with HTTP
400 iff it fails Python's `re.match(r'^[a-zA-Z0-9_-]+$', ·)`, which
accepts exactly full matches of the character class plus the same with
one trailing newline; "abc-XYZ_01" is accepted and "abc/def", "" and
"abc def" are rejected. -/
theorem unique_id_validation :
    (∀ s : String,
        validate_unique_id s = (matchesIdRegexFull s || matchesIdRegexBeforeNL s))
    ∧ validate_unique_id "abc-XYZ_01" = true
    ∧ validate_unique_id "abc/def" = false
    ∧ validate_unique_id "" = false
    ∧ validate_unique_id "abc def" = false
    ∧ (∀ s : String, startRejects400 s = ! validate_unique_id s) :=
  ⟨fun s => reMatch_eq s, by decide, by decide, by decide, by decide, fun _ => rfl⟩

/-! ## C1: fan-out queues -/

/-- C1 counterexample: the queue created by `register_queue` is
`asyncio.Queue()` with `maxsize = 0`, i.e. unbounded — refuting "each
registered subscriber handle is a bounded queue". -/
theorem subscriber_queue_unbounded_cex :
    (registerQueue ([] : QueueMap) "s").2.maxsize = 0
    ∧ QueueBounded (registerQueue ([] : QueueMap) "s").2 = False :=
  ⟨rfl, by simp [QueueBounded, registerQueue, newSubscriberQueue]⟩

/-- C1 (amended): every registered subscriber handle is an unbounded
queue (`maxsize = 0`), and a broadcast `put` on an unbounded queue
completes immediately, so delivering a segment to the stream's subscriber
set never blocks on any subscriber — even one whose queue is never
drained — and every queue receives the segment. -/
theorem fanout_unbounded_nonblocking :
    (∀ (qm : QueueMap) (uid : String), (registerQueue qm uid).2.maxsize = 0)
    ∧ (∀ (qs : List (AQueue TranscriptionSegment)) (x : TranscriptionSegment),
        (∀ q ∈ qs, q.maxsize = 0) →
        broadcastToQueues qs x = some (qs.map fun q => { q with items := q.items ++ [x] })) := by
  refine ⟨fun qm uid => rfl, fun qs x h => ?_⟩
  induction qs with
  | nil => rfl
  | cons q rest ih =>
    have hq : q.maxsize = 0 := h q (List.mem_cons_self q rest)
    have hput : q.putItem x = some { q with items := q.items ++ [x] } := by
      simp [AQueue.putItem, AQueue.putWouldBlock, hq]
    have hrest := ih fun p hp => h p (List.mem_cons_of_mem q hp)
    simp [broadcastToQueues, hput, hrest]

/-- C1 witness: a subscriber whose queue already holds an undrained
segment still accepts a broadcast without blocking. -/
theorem fanout_unbounded_nonblocking_witness :
    broadcastToQueues [{ maxsize := 0, items := [segAlpha] }] segBeta
      = some [{ maxsize := 0, items := [segAlpha, segBeta] }] :=
  fanout_unbounded_nonblocking.2 [{ maxsize := 0, items := [segAlpha] }] segBeta (by decide)

/-! ## C2: session status lifecycle -/

/-- C2: evaluating the code on the failing update sequence.  When the
pipeline raises, `TranscriptionService.start` sets the session status to
`error` and its `finally` block calls `stop()`, which unconditionally sets
`stopped`: the status moves backward out of the terminal `error` state
(`stopped` precedes `error` in the lifecycle order), while the error
message and a fresh `stopped_at` remain. -/
theorem status_backward_after_error :
    ((updateSessionStatus (updateSessionStatus mgrOne "s" .error (some "boom") 5)
        "s" .stopped none 6).active_sessions.lookup "s")
      = some { session_id := "sid-1", unique_id := "s", status := .stopped,
               started_at := 0, stopped_at := some 6, error := some "boom",
               hls_url := "u" }
    ∧ statusRank .stopped < statusRank .error := by
  constructor
  · decide
  · decide

/-! ## C8: STT receive loop -/

/-- C8 counterexample: a frame carrying both `finished: true` and a
non-empty `tokens` list is not yielded — the `finished` check precedes the
tokens check — refuting "a frame is yielded exactly when its tokens field
is present and non-empty". -/
theorem receive_tokens_not_yielded_cex :
    frameHasTokens finishedTokensFrame = true
    ∧ receiveLoop [some finishedTokensFrame] = ([], .finishedOk) := by
  constructor
  · decide
  · decide

/-- C8 (amended): the receive loop examines parseable frames in order
with error-code taking precedence over finished, and finished over
tokens: it yields exactly the frames before the first terminating frame
(truthy `error_code` or truthy `finished`) whose `tokens` field is
present and non-empty; reception ends with a surfaced error if the first
terminating frame carries an error code, normally if it is a finished
frame, and as a closed stream if no terminating frame arrives; all other
frames (including unparseable ones) are skipped. -/
theorem receive_loop_spec :
    ∀ msgs : List (Option SxFrame),
      receiveLoop msgs =
        (((msgs.filterMap id).takeWhile fun f => ! frameTerminates f).filter frameHasTokens,
         match (msgs.filterMap id).dropWhile (fun f => ! frameTerminates f) with
         | [] => .socketClosed
         | f :: _ => if frameHasErr f then .erroredOut else .finishedOk) := by
  intro msgs
  induction msgs with
  | nil => rfl
  | cons m rest ih =>
    cases m with
    | none => simpa using ih
    | some f =>
      by_cases he : frameHasErr f
      · simp [receiveLoop, he, frameTerminates, List.takeWhile_cons, List.dropWhile_cons]
      · by_cases hf : frameFinished f
        · simp [receiveLoop, he, hf, frameTerminates, List.takeWhile_cons,
            List.dropWhile_cons]
        · by_cases ht : frameHasTokens f
          · simp [receiveLoop, he, hf, ht, frameTerminates, List.takeWhile_cons,
              List.dropWhile_cons, List.filter_cons, ih]
          · simp [receiveLoop, he, hf, ht, frameTerminates, List.takeWhile_cons,
              List.dropWhile_cons, List.filter_cons, ih]

/-! ## C6: segment formation -/

lemma formatScan_eq (tokens : List Token) (tp : List String) (ws : List Word) (fin : Bool) :
    formatScan tokens tp ws fin =
      (tp ++ (tokens.filter fun t => t.text != "").map Token.text,
       ws ++ (tokens.filter fun t => t.text != "").map wordOfToken,
       fin || (tokens.filter fun t => t.text != "").any fun t => t.is_final.getD false) := by
  induction tokens generalizing tp ws fin with
  | nil => simp [formatScan]
  | cons t rest ih =>
    by_cases h : t.text = ""
    · simp [formatScan, h, ih, List.filter_cons]
    · simp [formatScan, h, ih, List.filter_cons, Bool.or_assoc]

/-- C6: `_format_transcription` filters out tokens with empty text and
emits nothing when none remain; otherwise the segment's text is the
separator-free concatenation of the surviving token texts in order, its
`is_final` is the disjunction of their truthy `is_final` flags, and its
words are one `Word` per surviving token, with absent `start_time`,
`end_time`, `confidence`, `speaker`, `language` defaulting to `0`, `0`,
`1`, `none`, `none`. -/
theorem format_transcription_spec :
    (∀ (uid sid : String) (ts : Nat) (stime : Rat) (tokens : List Token),
      formatTranscription uid sid ts stime tokens =
        (if ((tokens.filter fun t => t.text != "").map Token.text).isEmpty then none
         else some { unique_id := uid, segment_id := sid, timestamp := ts,
                     stream_time := stime,
                     text := String.join ((tokens.filter fun t => t.text != "").map Token.text),
                     is_final := (tokens.filter fun t => t.text != "").any
                       fun t => t.is_final.getD false,
                     words := (tokens.filter fun t => t.text != "").map wordOfToken }))
    ∧ (∀ (s : String) (fl : Option Bool),
        wordOfToken { text := s, is_final := fl } =
          { text := s, start_time := 0, end_time := 0, confidence := 1,
            speaker := none, language := none }) := by
  refine ⟨fun uid sid ts stime tokens => ?_, fun s fl => rfl⟩
  cases tokens with
  | nil => rfl
  | cons t rest =>
    simp only [formatTranscription, List.isEmpty_cons, Bool.false_eq_true, if_false,
      formatScan_eq, List.nil_append, Bool.false_or]

/-! ## C7: session admission -/

lemma dictSet_length_of_lookup_none {α : Type} (m : List (String × α)) (k : String) (v : α)
    (h : m.lookup k = none) : (dictSet m k v).length = m.length + 1 := by
  induction m with
  | nil => rfl
  | cons p rest ih =>
    obtain ⟨k', v'⟩ := p
    rw [List.lookup_cons] at h
    by_cases hk : k == k'
    · rw [hk] at h
      simp at h
    · have hk' : (k == k') = false := by simpa using hk
      rw [hk'] at h
      simp only [dictSet, hk', Bool.false_eq_true, if_false, List.length_cons]
      rw [ih h]

/-- C7: `create_session` checks existence and capacity inside one
critical section.  If the stream already has a session it fails with
`alreadyExists` and returns the manager state unchanged (all four maps
untouched); if the active-session count has reached the cap it fails
with `atCapacity`, again without side effects; and on success the
active-session count grows by one and stays within the cap. -/
theorem create_session_checks :
    (∀ (st : ManagerState) (uid hls sid : String) (now : Nat),
      (st.active_sessions.lookup uid).isSome →
      createSession st uid hls sid now = (st, .error .alreadyExists))
    ∧ (∀ (st : ManagerState) (uid hls sid : String) (now : Nat),
      st.active_sessions.lookup uid = none →
      st.max_concurrent ≤ st.active_sessions.length →
      createSession st uid hls sid now = (st, .error .atCapacity))
    ∧ (∀ (st : ManagerState) (uid hls sid : String) (now : Nat),
      st.active_sessions.lookup uid = none →
      st.active_sessions.length < st.max_concurrent →
      (createSession st uid hls sid now).1.active_sessions.length
          = st.active_sessions.length + 1
      ∧ (createSession st uid hls sid now).1.active_sessions.length ≤ st.max_concurrent
      ∧ ∃ s, (createSession st uid hls sid now).2 = .ok s) := by
  refine ⟨fun st uid hls sid now h => ?_, fun st uid hls sid now h hc => ?_,
    fun st uid hls sid now h hc => ?_⟩
  · simp [createSession, h]
  · simp [createSession, h, hc]
  · have hlen := dictSet_length_of_lookup_none st.active_sessions uid
      ({ session_id := sid, unique_id := uid, status := .pending,
         started_at := now, hls_url := hls } : StreamSession) h
    refine ⟨?_, ?_, ?_⟩ <;>
      simp [createSession, h, Nat.not_le.mpr hc, hlen, Nat.succ_le_of_lt hc]

/-- C7 witness: with a cap of one and an active session for "s",
creating "s" again fails `alreadyExists` and creating "b" fails
`atCapacity`, both leaving the manager state intact. -/
theorem create_session_checks_witness :
    createSession mgrFull "s" "h" "sid-2" 1 = (mgrFull, .error .alreadyExists)
    ∧ createSession mgrFull "b" "h" "sid-2" 1 = (mgrFull, .error .atCapacity) :=
  ⟨create_session_checks.1 mgrFull "s" "h" "sid-2" 1 (by decide),
   create_session_checks.2.1 mgrFull "b" "h" "sid-2" 1 (by decide) (by decide)⟩

/-! ## C4: retry backoff policy -/

lemma startLoop_sleeps_le (runs : List ExtractRun) :
    ∀ (fails delay : Nat), delay ≤ MAX_RETRY_DELAY →
      ∀ d ∈ (startLoop runs fails delay).2.1, d ≤ MAX_RETRY_DELAY := by
  induction runs with
  | nil =>
    intro fails delay _ d hd
    simp [startLoop] at hd
  | cons r rest ih =>
    intro fails delay hdel d hd
    simp only [startLoop] at hd
    by_cases hok : r.endsOk
    · rw [if_pos hok] at hd
      simp at hd
    · rw [if_neg hok] at hd
      by_cases hmax : MAX_RETRIES ≤ (if r.chunks.isEmpty then fails else 0) + 1
      · rw [if_pos hmax] at hd
        simp at hd
      · rw [if_neg hmax] at hd
        simp only [List.mem_cons] at hd
        rcases hd with rfl | hd
        · by_cases hce : r.chunks.isEmpty
          · simpa [hce] using hdel
          · simp [hce, INITIAL_RETRY_DELAY, MAX_RETRY_DELAY]
        · exact ih _ _ (Nat.min_le_right _ _) d hd

/-- C4: the extractor's retry policy.  Starting from
`retry_delay = INITIAL_RETRY_DELAY = 1`, any `MAX_RETRIES = 5` or more
consecutive failing runs with no successful read sleep 1, 2, 4, 8 seconds
between retries and then end the generator normally (no exception is
raised, `retriesExhausted`); a successful read in between resets the
failure count and the delay to 1 second (sleeps 1, 2, 1, 2 in the mixed
trace); and every sleep ever performed is capped at
`MAX_RETRY_DELAY = 30` seconds, the delay being doubled up to that cap
after each failure. -/
theorem extractor_retry_policy :
    (∀ n, MAX_RETRIES ≤ n →
      startLoop (List.replicate n ⟨[], false⟩) 0 INITIAL_RETRY_DELAY
        = ([], [1, 2, 4, 8], .retriesExhausted))
    ∧ startLoop [⟨[], false⟩, ⟨[], false⟩, ⟨[[7]], false⟩, ⟨[], false⟩] 0 INITIAL_RETRY_DELAY
        = ([[7]], [1, 2, 1, 2], .ranOut)
    ∧ (∀ (runs : List ExtractRun) (fails delay : Nat), delay ≤ MAX_RETRY_DELAY →
        ∀ d ∈ (startLoop runs fails delay).2.1, d ≤ MAX_RETRY_DELAY) := by
  refine ⟨fun n hn => ?_, by decide, startLoop_sleeps_le⟩
  have hn5 : 5 ≤ n := hn
  obtain ⟨m, rfl⟩ : ∃ m, n = 5 + m := ⟨n - 5, by omega⟩
  have hrep : List.replicate (5 + m) (⟨[], false⟩ : ExtractRun)
      = ⟨[], false⟩ :: ⟨[], false⟩ :: ⟨[], false⟩ :: ⟨[], false⟩ :: ⟨[], false⟩ ::
        List.replicate m ⟨[], false⟩ := by
    simp [List.replicate_add]
  rw [hrep]
  simp [startLoop, INITIAL_RETRY_DELAY, MAX_RETRIES, MAX_RETRY_DELAY, BACKOFF_MULTIPLIER]

/-- C4 witness: five straight failures from a fresh extractor. -/
theorem extractor_retry_policy_witness :
    startLoop (List.replicate 5 (⟨[], false⟩ : ExtractRun)) 0 INITIAL_RETRY_DELAY
      = ([], [1, 2, 4, 8], .retriesExhausted)
    ∧ ∀ d ∈ (startLoop [(⟨[], false⟩ : ExtractRun)] 0 INITIAL_RETRY_DELAY).2.1,
        d ≤ MAX_RETRY_DELAY :=
  ⟨extractor_retry_policy.1 5 (by decide),
   extractor_retry_policy.2.2 [⟨[], false⟩] 0 INITIAL_RETRY_DELAY (by decide)⟩

/-! ## C5: empty-read handling -/

lemma extractLoop_empty_live (n : Nat) :
    ∀ cnt, extractLoop (List.replicate n (.readData [] false)) cnt = ([], .ranOut) := by
  induction n with
  | zero => intro cnt; rfl
  | succ m ih =>
    intro cnt
    simp [List.replicate_succ, extractLoop, ih]

lemma extractLoop_empty_exited (n : Nat) :
    ∀ cnt, extractLoop (List.replicate n (.readData [] true)) cnt
      = ([], if 10 ≤ cnt + n ∧ 1 ≤ n then .endedStream else .ranOut) := by
  induction n with
  | zero =>
    intro cnt
    simp [extractLoop]
  | succ m ih =>
    intro cnt
    by_cases h : 10 ≤ cnt + 1
    · have hc : (10 ≤ cnt + (m + 1) ∧ 1 ≤ m + 1) := by omega
      simp [List.replicate_succ, extractLoop, h, hc]
    · have hiff : (10 ≤ cnt + 1 + m ∧ 1 ≤ m) ↔ (10 ≤ cnt + (m + 1) ∧ 1 ≤ m + 1) := by
        omega
      simp [List.replicate_succ, extractLoop, h, ih (cnt + 1), hiff]

/-- C5 counterexample: twelve consecutive empty reads with the child
still live cross the ≈10 empty-read threshold, yet the inner read loop
does not treat the stream as ended (it keeps polling); and a single empty
read with the child already exited does not end the stream either — the
loop ends only when both conditions hold together, refuting "as soon as
either ... the extractor treats the audio stream as ended". -/
theorem extractor_empty_read_cex :
    extractLoop (List.replicate 12 (.readData [] false)) 0 = ([], .ranOut)
    ∧ extractLoop [.readData [] true] 0 = ([], .ranOut) := by
  constructor
  · decide
  · decide

/-- C5 (amended): on a run of consecutive empty reads the inner sequence
terminates exactly when the empty-read counter has reached 10 **and** the
child process has exited at that check; while the child is live the
extractor sleeps ~100 ms after the threshold and keeps polling (never
ending on empty reads alone), and a child exit is only noticed once the
threshold is reached. -/
theorem extractor_empty_read_policy :
    ∀ (n : Nat) (b : Bool),
      extractLoop (List.replicate n (.readData [] b)) 0
        = ([], if b = true ∧ 10 ≤ n then .endedStream else .ranOut) := by
  intro n b
  cases b
  · simp [extractLoop_empty_live n 0]
  · rw [extractLoop_empty_exited n 0]
    have hiff : (10 ≤ n ∧ 1 ≤ n) ↔ 10 ≤ n := by omega
    simp [hiff]

/-! ## C3 and C10: chunk buffer windows -/

lemma windowFinalWords_cons (s : TranscriptionSegment) (rest : List TranscriptionSegment) :
    windowFinalWords (s :: rest) =
      (if s.is_final then s.words.map wordToRec else []) ++ windowFinalWords rest := by
  by_cases hf : s.is_final <;> simp [windowFinalWords, List.filter_cons, hf]

lemma foldl_addSegment_some (segs : List TranscriptionSegment) :
    ∀ c : ChunkData,
      segs.foldl addSegment (some c) = some {
        start_time := c.start_time,
        end_time := segs.foldl (fun _ s => s.stream_time) c.end_time,
        segments := c.segments ++ segs,
        text := segs.foldl
          (fun a s => if s.is_final then joinFinalText a (pyStrip s.text) else a) c.text,
        words := c.words ++ windowFinalWords segs } := by
  induction segs with
  | nil =>
    intro c
    simp [windowFinalWords]
  | cons s rest ih =>
    intro c
    by_cases hf : s.is_final
    · rw [List.foldl_cons,
        show addSegment (some c) s = some
          { start_time := c.start_time, end_time := s.stream_time,
            segments := c.segments ++ [s],
            text := joinFinalText c.text (pyStrip s.text),
            words := c.words ++ s.words.map wordToRec } from by simp [addSegment, hf],
        ih]
      simp [hf, windowFinalWords_cons, List.append_assoc]
    · rw [List.foldl_cons,
        show addSegment (some c) s = some
          { start_time := c.start_time, end_time := s.stream_time,
            segments := c.segments ++ [s], text := c.text,
            words := c.words } from by simp [addSegment, hf],
        ih]
      simp [hf, windowFinalWords_cons, List.append_assoc]

lemma foldl_addSegment_none (s : TranscriptionSegment) (rest : List TranscriptionSegment) :
    (s :: rest).foldl addSegment none = some {
      start_time := s.stream_time,
      end_time := rest.foldl (fun _ t => t.stream_time) s.stream_time,
      segments := s :: rest,
      text := windowFinalText (s :: rest),
      words := windowFinalWords (s :: rest) } := by
  rw [List.foldl_cons]
  by_cases hf : s.is_final
  · rw [show addSegment none s = some
        { start_time := s.stream_time, end_time := s.stream_time,
          segments := [s], text := joinFinalText "" (pyStrip s.text),
          words := s.words.map wordToRec } from by simp [addSegment, hf],
      foldl_addSegment_some]
    simp [windowFinalText, windowFinalWords_cons, hf]
  · rw [show addSegment none s = some
        { start_time := s.stream_time, end_time := s.stream_time,
          segments := [s], text := "", words := [] } from by simp [addSegment, hf],
      foldl_addSegment_some]
    simp [windowFinalText, windowFinalWords_cons, hf]

lemma foldl_stream_time_getLast (rest : List TranscriptionSegment) :
    ∀ s : TranscriptionSegment,
      rest.foldl (fun _ t => t.stream_time) s.stream_time
        = ((s :: rest).getLast (List.cons_ne_nil s rest)).stream_time := by
  induction rest with
  | nil => intro s; rfl
  | cons t ts ih =>
    intro s
    rw [List.foldl_cons, ih t, List.getLast_cons_cons]

/-- C10: flushing always leaves the window closed (the current-chunk
state becomes empty) on any buffer state reachable by a sequence of
`add_segment` calls, and therefore a second flush with no intervening
`add_segment` emits nothing: at most one chunk per window. -/
theorem chunk_flush_closes_window (segs : List TranscriptionSegment) :
    (flushChunk (segs.foldl addSegment none)).1 = none
    ∧ (flushChunk (flushChunk (segs.foldl addSegment none)).1).2 = none := by
  cases segs with
  | nil => exact ⟨rfl, rfl⟩
  | cons s rest =>
    rw [foldl_addSegment_none]
    constructor
    · simp [flushChunk]
    · simp [flushChunk]

/-- C3 counterexample: a window holding a single non-final segment whose
text is the single space " " (so it trims to the empty string): the
window is non-empty and only partials arrived, yet the flush emits no
chunk — the callback fires only for a non-empty fallback text — refuting
"the chunk is still emitted". -/
theorem chunk_flush_no_emit_cex :
    (addSegment none wsSeg).isSome = true
    ∧ wsSeg.is_final = false
    ∧ (flushChunk (addSegment none wsSeg)).2 = none := by
  refine ⟨rfl, rfl, ?_⟩
  decide

/-- C3 (amended): for every non-empty chunk window, `add_segment`
accumulates the trimmed texts of final segments joined by single spaces
(joining onto an empty accumulator adds no space) together with their
word records; on flush, if that accumulated text is empty (in particular
when only partial segments arrived) the trimmed text and words of the
last segment in the window are used as a fallback, and the chunk is
emitted if and only if the resulting text is non-empty. -/
theorem chunk_window_flush (segs : List TranscriptionSegment) (h : segs ≠ []) :
    flushChunk (segs.foldl addSegment none) =
      (none,
        if windowFinalText segs = "" then
          (if pyStrip (segs.getLast h).text = "" then none
           else some { start_time := (segs.head h).stream_time,
                       end_time := (segs.getLast h).stream_time,
                       segments := segs,
                       text := pyStrip (segs.getLast h).text,
                       words := windowFinalWords segs
                         ++ ((segs.getLast h).words.map wordToRec) })
        else some { start_time := (segs.head h).stream_time,
                    end_time := (segs.getLast h).stream_time,
                    segments := segs,
                    text := windowFinalText segs,
                    words := windowFinalWords segs }) := by
  cases segs with
  | nil => exact absurd rfl h
  | cons s rest =>
    rw [foldl_addSegment_none, foldl_stream_time_getLast rest s]
    have hlast : (s :: rest).getLast? = some ((s :: rest).getLast (List.cons_ne_nil s rest)) :=
      List.getLast?_eq_getLast _ _
    by_cases ht : windowFinalText (s :: rest) = ""
    · simp only [flushChunk, List.isEmpty_cons, Bool.false_eq_true, if_false, ht,
        if_pos rfl, hlast, List.head_cons]
      by_cases htr : pyStrip ((s :: rest).getLast (List.cons_ne_nil s rest)).text = ""
      · simp [htr]
      · simp [htr]
    · simp only [flushChunk, List.isEmpty_cons, Bool.false_eq_true, if_false,
      List.head_cons]
      rw [if_neg ht, if_neg ht]
      simp [ht]

/-- C3 witness: a window of two final segments "alpha", "beta". -/
theorem chunk_window_flush_witness :
    flushChunk ([segAlpha, segBeta].foldl addSegment none)
      = (none, some { start_time := 0, end_time := 1,
                      segments := [segAlpha, segBeta],
                      text := "alpha beta", words := [] }) := by
  rw [chunk_window_flush [segAlpha, segBeta] (by decide)]
  decide

end LiveTranscription
